import Mathlib

set_option maxRecDepth 8192

namespace PCEval

/-! # Shallow embedding of the PCEval converter / validator / metrics core

Embeds `src/converters/type_mappings.py`, `src/converters/pin_mappings.py`,
`src/converters/standard_to_wokwi.py`, `src/converters/wokwi_to_standard.py`,
`src/schema/validator.py` and `src/evaluation/hardware_metrics.py`.

Python strings are `String`, python dicts are insertion-ordered association
lists (`dinsert` overwrites in place like a python dict assignment, `dget` is
`d[k]` returning `Option`), python exceptions are `Except PyErr`. All string
operations are re-implemented over `String.data` (`List Char`) so that closed
instances reduce inside the kernel; they agree with python semantics on the
ASCII inputs the program handles. -/

/-- Python dict lookup `d.get(k)` / `d[k]` (insertion-ordered association list). -/
def dget {β : Type} : List (String × β) → String → Option β
  | [], _ => none
  | (k, v) :: rest, key => if k = key then some v else dget rest key

/-- Python dict assignment `d[k] = v`: overwrite in place, else append. -/
def dinsert {β : Type} : List (String × β) → String → β → List (String × β)
  | [], k, v => [(k, v)]
  | (k', v') :: rest, k, v =>
      if k' = k then (k, v) :: rest else (k', v') :: dinsert rest k v

/-- Python `d.values()`. -/
def dvalues {β : Type} (d : List (String × β)) : List β := d.map (·.2)

/-- Python `s.startswith(pat)` on char lists. -/
def leadsWith : List Char → List Char → Bool
  | [], _ => true
  | _ :: _, [] => false
  | p :: ps, c :: cs => p = c && leadsWith ps cs

/-- Python substring test `pat in s` on char lists. -/
def hasSub (pat : List Char) : List Char → Bool
  | [] => leadsWith pat []
  | c :: cs => leadsWith pat (c :: cs) || hasSub pat cs

/-- Python `pat in s` for strings. -/
def strContains (s pat : String) : Bool := hasSub pat.data s.data

/-- Python `s.startswith(pat)`. -/
def strStarts (s pat : String) : Bool := leadsWith pat.data s.data

/-- Python `s.endswith(pat)`. -/
def strEnds (s pat : String) : Bool := leadsWith pat.data.reverse s.data.reverse

/-- Split a char list at the first occurrence of `sep`; `none` when absent. -/
def splitFirstList (sep : Char) : List Char → Option (List Char × List Char)
  | [] => none
  | c :: cs =>
      if c = sep then some ([], cs)
      else match splitFirstList sep cs with
           | none => none
           | some (x, y) => some (c :: x, y)

/-- Python `s.split(sep, 1)`: `some (before, after)` at the first separator. -/
def pySplit1 (s : String) (sep : Char) : Option (String × String) :=
  match splitFirstList sep s.data with
  | none => none
  | some (x, y) => some (⟨x⟩, ⟨y⟩)

/-- Full split on every occurrence of `sep` (python `s.split(sep)`). -/
def splitAllList (sep : Char) : List Char → List (List Char)
  | [] => [[]]
  | c :: cs =>
      if c = sep then [] :: splitAllList sep cs
      else match splitAllList sep cs with
           | [] => [[c]]
           | x :: xs => (c :: x) :: xs

/-- Python `s.split(sep)` for strings. -/
def pySplitAll (s : String) (sep : Char) : List String :=
  (splitAllList sep s.data).map (⟨·⟩)

/-- Python `s.lower()` (ASCII). -/
def pyLower (s : String) : String := ⟨s.data.map Char.toLower⟩

/-- Python `''.join(c for c in s if c.isdigit())`. -/
def filterDigits (s : String) : String := ⟨s.data.filter Char.isDigit⟩

/-- Python `''.join(c for c in s if c.isalpha())` (ASCII). -/
def filterAlpha (s : String) : String := ⟨s.data.filter Char.isAlpha⟩

/-- Python `s.isdigit()` (ASCII). -/
def pyIsDigit (s : String) : Bool := !s.data.isEmpty && s.data.all Char.isDigit

/-- The trailing digit run of `s`: the group of `re.search(r'(\d+)$', s)` ("" if no match). -/
def trailingDigits (s : String) : String := ⟨(s.data.reverse.takeWhile Char.isDigit).reverse⟩

/-- `s` with its trailing digit run removed: `re.sub(r'\d+$', '', s)`. -/
def stripTrailingDigits (s : String) : String :=
  ⟨(s.data.reverse.dropWhile Char.isDigit).reverse⟩

/-- Python `s.strip()`. -/
def pyStrip (s : String) : String :=
  ⟨((s.data.dropWhile Char.isWhitespace).reverse.dropWhile Char.isWhitespace).reverse⟩

/-- Python `int(s)` on a digit string. -/
def digitsToNat (s : String) : Nat := s.data.foldl (fun n c => 10 * n + (c.toNat - 48)) 0

/-- Fuel-driven worker for `replaceList`; structural recursion on the fuel, which is
always at least the list length, so the fuel never runs out on a nonempty list. -/
def replaceListAux (p : Char) (ps rep : List Char) : Nat → List Char → List Char
  | 0, l => l
  | _ + 1, [] => []
  | fuel + 1, c :: rest =>
      if p = c && leadsWith ps rest then
        rep ++ replaceListAux p ps rep fuel (rest.drop ps.length)
      else c :: replaceListAux p ps rep fuel rest

/-- Replace every occurrence of the nonempty pattern `p :: ps` by `rep`
(python `s.replace(pat, rep)`, left to right, non-overlapping). -/
def replaceList (p : Char) (ps rep : List Char) (l : List Char) : List Char :=
  replaceListAux p ps rep l.length l

/-- Python `s.replace(pat, rep)`. The program only ever replaces nonempty patterns. -/
def pyReplace (s pat rep : String) : String :=
  match pat.data with
  | [] => s
  | p :: ps => ⟨replaceList p ps rep.data s.data⟩

/-- The python exceptions the embedded code can raise. -/
inductive PyErr where
  | keyError
  | indexError
  | attributeError
  | unboundLocalError
  | valueError (msg : String)
deriving DecidableEq, Repr

instance exceptDecEq {ε α : Type} [DecidableEq ε] [DecidableEq α] :
    DecidableEq (Except ε α) := fun a b =>
  match a, b with
  | .ok x, .ok y => if h : x = y then .isTrue (by rw [h]) else .isFalse (by simp [h])
  | .error x, .error y => if h : x = y then .isTrue (by rw [h]) else .isFalse (by simp [h])
  | .ok _, .error _ => .isFalse (by simp)
  | .error _, .ok _ => .isFalse (by simp)

/-! ## Component catalog (`module_info.json` records)

Modelled from the spec: the catalog source document itself (`module_info.json`)
is not under `src/`; §6 of the spec fixes its record shape (`simulator_type`,
`neutral_type`, `neutral_type_aliases[]`, `pins[]` with `pin_name`,
`description`, `pin_aliases[]`), which both loaders in
`type_mappings.py`/`pin_mappings.py` consume. All table-building code below is
translated from those loaders. -/

structure PinInfo where
  pin_name : String
  description : String
  pin_aliases : List String
deriving DecidableEq, Repr

structure ModuleInfo where
  wokwi_type : String
  shdf_type : String
  shdf_type_aliases : List String
  pins : List PinInfo
deriving DecidableEq, Repr

abbrev Catalog := List ModuleInfo

/-- `type_mappings.load_module_info`: dict keyed by `wokwi_type`, skipping records
with an empty `wokwi_type`. -/
def typeModuleDict (cat : Catalog) : List (String × ModuleInfo) :=
  cat.foldl (fun d m => if m.wokwi_type ≠ "" then dinsert d m.wokwi_type m else d) []

/-- `type_mappings.TYPE_MAPPINGS` after `update_type_mappings_from_module_info`. -/
def TYPE_MAPPINGS (cat : Catalog) : List (String × String) :=
  (typeModuleDict cat).foldl (fun d wm => dinsert d wm.1 (pyLower wm.2.shdf_type)) []

/-- `type_mappings.SHDF_TYPE_ALIASES` after `update_type_mappings_from_module_info`. -/
def SHDF_TYPE_ALIASES (cat : Catalog) : List (String × String) :=
  (typeModuleDict cat).foldl
    (fun d wm =>
      let s := pyLower wm.2.shdf_type
      wm.2.shdf_type_aliases.foldl (fun d a => dinsert d (pyLower a) s) (dinsert d s s))
    []

/-- `type_mappings.REVERSE_TYPE_MAPPINGS`. -/
def REVERSE_TYPE_MAPPINGS (cat : Catalog) : List (String × String) :=
  (TYPE_MAPPINGS cat).foldl (fun d ws => dinsert d ws.2 ws.1) []

/-- `type_mappings.wokwi_to_shdf_type`. -/
def wokwi_to_shdf_type (cat : Catalog) (w : String) : String :=
  match dget (TYPE_MAPPINGS cat) w with
  | some s => s
  | none => pyReplace (pyLower (pyReplace w "wokwi-" "")) "-" " "

/-- `type_mappings.shdf_to_wokwi_type`. -/
def shdf_to_wokwi_type (cat : Catalog) (s : String) : String :=
  match dget (REVERSE_TYPE_MAPPINGS cat) s with
  | some w => w
  | none => "wokwi-" ++ pyReplace s " " "-"

/-- `type_mappings.shdf_alias_check`: the `except` clause returns the input unchanged
when the key is absent. -/
def shdf_alias_check (cat : Catalog) (t : String) : String :=
  (dget (SHDF_TYPE_ALIASES cat) t).getD t

/-- `pin_mappings.load_module_info`: dict keyed by the lower-cased `shdf_type`,
skipping records with an empty `wokwi_type`. -/
def pinModuleDict (cat : Catalog) : List (String × ModuleInfo) :=
  cat.foldl (fun d m => if m.wokwi_type ≠ "" then dinsert d (pyLower m.shdf_type) m else d) []

/-- The pin-name derivation rule of `pin_mappings.update_pin_mappings_from_module_info`
(lines 100-118). In the multi-dot branch python unpacks `wokwi_pin.split(".")` into
exactly two names and would raise `ValueError` at catalog-load time otherwise; such a
catalog never loads, so the fallback arm is unreachable for loadable catalogs. -/
def derive_shdf_pin (t wokwi_pin : String) : String :=
  if pyIsDigit wokwi_pin then "pin" ++ wokwi_pin
  else if t = "arduino uno" ∨ t = "7-segment display" then
    ⟨wokwi_pin.data.foldr
      (fun c acc => if c.isDigit then c :: acc else if c = '.' then acc else c.toLower :: acc)
      []⟩
  else if strContains wokwi_pin "." then
    match pySplitAll wokwi_pin '.' with
    | [p, s] =>
        (if pyIsDigit p then "pin" ++ p else pyLower p) ++ "." ++
          (if pyIsDigit s then "pin" ++ s else pyLower s)
    | _ => pyLower wokwi_pin
  else pyLower wokwi_pin

/-- The four global tables built by `pin_mappings.update_pin_mappings_from_module_info`. -/
structure PinTables where
  pin_mappings : List (String × List (String × String))
  pin_name_aliases : List (String × List (String × String))
  reverse_pin_mappings : List (String × List (String × String))
  component_type_aliases : List (String × String)
deriving DecidableEq, Repr

/-- One iteration of the per-component loop in `update_pin_mappings_from_module_info`. -/
def pinTablesStep (tb : PinTables) (t : String) (m : ModuleInfo) : PinTables :=
  let tb := { tb with
    pin_mappings := dinsert tb.pin_mappings t [],
    pin_name_aliases := dinsert tb.pin_name_aliases t [],
    reverse_pin_mappings := dinsert tb.reverse_pin_mappings t [],
    component_type_aliases :=
      m.shdf_type_aliases.foldl (fun d a => dinsert d (pyLower a) t)
        (dinsert tb.component_type_aliases t t) }
  m.pins.foldl
    (fun tb pn =>
      if pn.pin_name ≠ "" ∧ pn.description ≠ "" then
        let sp := derive_shdf_pin t pn.pin_name
        let pm := dinsert tb.pin_mappings t
          (dinsert ((dget tb.pin_mappings t).getD []) pn.pin_name sp)
        let rpm := dinsert tb.reverse_pin_mappings t
          (dinsert ((dget tb.reverse_pin_mappings t).getD []) sp pn.pin_name)
        let pna0 := dinsert tb.pin_name_aliases t
          (dinsert ((dget tb.pin_name_aliases t).getD []) (pyLower sp) sp)
        let pna := pn.pin_aliases.foldl
          (fun d a => dinsert d t (dinsert ((dget d t).getD []) (pyLower a) sp)) pna0
        { tb with pin_mappings := pm, reverse_pin_mappings := rpm, pin_name_aliases := pna }
      else tb)
    tb

/-- All pin tables for a catalog (the module is loaded once at process start). -/
def pinTables (cat : Catalog) : PinTables :=
  (pinModuleDict cat).foldl (fun tb tm => pinTablesStep tb tm.1 tm.2) ⟨[], [], [], []⟩

/-- `pin_mappings.wokwi_to_shdf_pin`. When the digit-stripped component id does not
resolve through `COMPONENT_TYPE_ALIASES`, the `except` handler's `print` references the
still-unassigned local `shdf_component_type`, so the call raises `UnboundLocalError`. -/
def wokwi_to_shdf_pin (cat : Catalog) (component_id wokwi_pin : String) :
    Except PyErr String :=
  let tb := pinTables cat
  let wokwi_pin_lower := pyLower wokwi_pin
  let wokwi_component_type := stripTrailingDigits component_id
  match dget tb.component_type_aliases (pyLower wokwi_component_type) with
  | none => .error .unboundLocalError
  | some t =>
    match dget tb.pin_mappings t with
    | none => .ok wokwi_pin
    | some cm =>
        match dget cm wokwi_pin, dget cm wokwi_pin_lower with
        | some v, _ => .ok v
        | none, some v => .ok v
        | none, none => .ok wokwi_pin

/-- The alias-resolution step of `shdf_to_wokwi_pin` (lines 181-184): both lookups sit
in one `try`, and failure leaves the pin name unchanged (a printed warning only). -/
def pinAliasResolve (tb : PinTables) (t p : String) : String :=
  match dget tb.pin_name_aliases t with
  | none => p
  | some m => (dget m p).getD p

/-- The component-type alias resolution of `shdf_to_wokwi_pin` (lines 175-178): the
lookup failure is caught and the name stays unchanged (printed warning only). -/
def ctaResolve (cat : Catalog) (t : String) : String :=
  (dget (pinTables cat).component_type_aliases (pyLower t)).getD t

/-- `pin_mappings.shdf_to_wokwi_pin`. The final reverse lookups (lines 187-188) are not
guarded, so an unresolved type or pin raises `KeyError`. -/
def shdf_to_wokwi_pin (cat : Catalog) (shdf_pin shdf_component_type : String) :
    Except PyErr String :=
  let tb := pinTables cat
  let t := ctaResolve cat shdf_component_type
  let p := pinAliasResolve tb t (pyLower shdf_pin)
  match dget tb.reverse_pin_mappings t with
  | none => .error .keyError
  | some m =>
      match dget m p with
      | none => .error .keyError
      | some w => .ok w

/-! ## Document data model (§3) -/

/-- A neutral (SHDF) component: `{id, type, properties}`. A missing `properties`
key and an empty mapping are not distinguished. -/
structure ShdfComponent where
  id : String
  type : String
  properties : List (String × String)
deriving DecidableEq, Repr

/-- A neutral (SHDF) document. Each connection is a list of endpoint strings
(the standard shape is exactly two). -/
structure ShdfDoc where
  components : List ShdfComponent
  connections : List (List String)
deriving DecidableEq, Repr

/-- A Wokwi part `{type, id, top, left, attrs, rotate?}`. -/
structure WokwiPart where
  type : String
  id : String
  top : Int
  left : Int
  attrs : List (String × String)
  rotate : Option Int
deriving DecidableEq, Repr

/-- A Wokwi connection `[p1, p2, color, routing]`. The converter always emits this
four-element shape, so the `len(conn) >= 2` guard of `convert_wokwi_to_standard`
always passes. -/
structure WokwiConn where
  p1 : String
  p2 : String
  color : String
  routing : List String
deriving DecidableEq, Repr

/-- A Wokwi diagram. The `version`/`author`/`editor` metadata is cosmetic (§6)
and omitted. -/
structure WokwiDiagram where
  parts : List WokwiPart
  connections : List WokwiConn
deriving DecidableEq, Repr

/-! ## `standard_to_wokwi.py` -/

/-- `_calculate_position` (top, left, rotate). -/
def _calculate_position (wt : String) (index : Nat) (mode : String) :
    Int × Int × Option Int :=
  if wt = "wokwi-arduino-uno" then (200, 20, none)
  else if wt = "wokwi-breadboard" then (0, 100, none)
  else if wt = "wokwi-resistor" then (100, 150 + (index : Int) * 50, some 90)
  else if wt = "wokwi-led" then (50, 150 + (index : Int) * 50, none)
  else if wt = "wokwi-pushbutton" then (150, 150 + (index : Int) * 50, some 90)
  else if mode = "logical" then (100, 200 + (index : Int) * 80, none)
  else (50 + (index : Int) * 30, 150 + (index : Int) * 40, none)

/-- Modelled from the spec: the fallback palette index hashes the concatenated
endpoint strings (the source calls `hashlib.md5`, an external library not under
`src/`); §9 fixes only that it is a pure deterministic function into the fixed
five-color palette, which any stable hash satisfies. -/
def stableHash (s : String) : Nat :=
  s.data.foldl (fun a c => (a * 31 + c.toNat) % 100003) 7

/-- `_determine_wire_color`. -/
def _determine_wire_color (a b : String) : String :=
  let points := a ++ b
  if strContains (pyLower points) "gnd" then "black"
  else if strContains (pyLower points) "5v" || strContains (pyLower points) "3.3v" then "red"
  else if strContains points "anode" || strContains points "cathode" then "green"
  else ["blue", "green", "yellow", "orange", "purple"].getD (stableHash points % 5) "blue"

/-- `_get_wokwi_id`. -/
def _get_wokwi_id (cat : Catalog) (cid t : String) : String :=
  let ds := trailingDigits cid
  if shdf_alias_check cat cid = t ∧ ds ≠ "" then t ++ "1"
  else if ds ≠ "" then t ++ ds
  else cid

/-- The "4-digit 7-segment display" rewrite of `convert_standard_to_wokwi` line 57. -/
def specialType (t : String) : String :=
  if t = "4-digit 7-segment display" then "7-segment display" else t

/-- The `component_type_map` dict: built during the components loop and read only by
the connections loop, so (on the non-raising path) it equals this full fold. -/
def component_type_map (cat : Catalog) (d : ShdfDoc) : List (String × String) :=
  d.components.foldl (fun m c => dinsert m c.id (specialType (shdf_alias_check cat c.type))) []

/-- The properties→attrs whitelist loop of `convert_standard_to_wokwi` (lines 70-83).
A resistor value that is not an integer string after stripping `"ohm"` and expanding
`"k"` raises `ValueError`. -/
def extractAttrs (t : String) : List (String × String) → List (String × String) →
    Except PyErr (List (String × String))
  | acc, [] => .ok acc
  | acc, (k, v) :: rest =>
      if k = "color" ∨ k = "digits" then extractAttrs t (dinsert acc k v) rest
      else if k = "value" ∧ t = "resistor" then
        let v1 := pyStrip (pyReplace (pyReplace v "ohm" "") "k" "000")
        if pyIsDigit v1 then extractAttrs t (dinsert acc "value" v1) rest
        else .error (.valueError "Resistor attribute should be an integer.")
      else extractAttrs t acc rest

/-- One iteration of the components loop of `convert_standard_to_wokwi`. The
`shdf_component_type is None` skip can only fire for a component whose `type` key is
missing entirely (`shdf_alias_check` returns any present string unchanged), which the
data model does not produce, so it has no counterpart here. -/
def convert_component (cat : Catalog) (mode : String) (i : Nat) (c : ShdfComponent) :
    Except PyErr WokwiPart :=
  let t0 := shdf_alias_check cat c.type
  let t := specialType t0
  let props := if t0 = "4-digit 7-segment display" then [("digits", "4")] else c.properties
  let wt := shdf_to_wokwi_type cat t
  let wid := _get_wokwi_id cat c.id t
  match extractAttrs t [] props with
  | .error e => .error e
  | .ok attrs =>
      let pos := _calculate_position wt i mode
      .ok { type := wt, id := wid, top := pos.1, left := pos.2.1, attrs := attrs,
            rotate := pos.2.2 }

/-- The components loop of `convert_standard_to_wokwi`. -/
def convertComponents (cat : Catalog) (mode : String) :
    Nat → List ShdfComponent → Except PyErr (List WokwiPart)
  | _, [] => .ok []
  | i, c :: cs =>
      match convert_component cat mode i c with
      | .error e => .error e
      | .ok p =>
          match convertComponents cat mode (i + 1) cs with
          | .error e => .error e
          | .ok ps => .ok (p :: ps)

/-- `_convert_to_wokwi_point`. Note that the breadboard branch triggers on
`"breadboard" in shdf_point` (substring test), that the power-rail branch triggers on
any `p` or `n` character in the position, and that `component_type_map[...]` raises
`KeyError` for an undeclared component id. -/
def _convert_to_wokwi_point (cat : Catalog) (ctm : List (String × String)) (p : String) :
    Except PyErr String :=
  if strContains p "breadboard" then
    match pySplit1 p '.' with
    | none => .error (.valueError ("Invalid SHDF point: " ++ p))
    | some (bb_id, position) =>
        if strContains position "p" || strContains position "n" then
          .ok (bb_id ++ ":" ++ filterAlpha position ++ "." ++ filterDigits position)
        else
          let side := if strContains "abcde" (pyLower (filterAlpha position)) then "t" else "b"
          .ok (bb_id ++ ":" ++ filterDigits position ++ side ++ "." ++ filterAlpha position)
  else
    match pySplit1 p '.' with
    | none => .ok p
    | some (cid, pin) =>
        match dget ctm cid with
        | none => .error .keyError
        | some t =>
            match shdf_to_wokwi_pin cat pin t with
            | .error e => .error e
            | .ok wpin => .ok (_get_wokwi_id cat cid t ++ ":" ++ wpin)

/-- The connections loop of `convert_standard_to_wokwi`. A connection list whose
length is not 2 falls into the legacy `connection.get("endpoints")` branch, and a
python `list` has no `.get`, so it raises `AttributeError`. The truthiness test
`if endpoint1_wokwi and endpoint2_wokwi` drops a connection with an empty converted
endpoint. -/
def convertConnections (cat : Catalog) (ctm : List (String × String)) :
    List (List String) → Except PyErr (List WokwiConn)
  | [] => .ok []
  | conn :: rest =>
      match conn with
      | [a, b] =>
          match _convert_to_wokwi_point cat ctm a with
          | .error e => .error e
          | .ok wa =>
              match _convert_to_wokwi_point cat ctm b with
              | .error e => .error e
              | .ok wb =>
                  match convertConnections cat ctm rest with
                  | .error e => .error e
                  | .ok ws =>
                      if wa ≠ "" ∧ wb ≠ "" then
                        .ok ({ p1 := wa, p2 := wb, color := _determine_wire_color a b,
                               routing := [] } :: ws)
                      else .ok ws
      | _ => .error .attributeError

/-- `convert_standard_to_wokwi`. -/
def convert_standard_to_wokwi (cat : Catalog) (d : ShdfDoc) (mode : String) :
    Except PyErr WokwiDiagram :=
  match convertComponents cat mode 0 d.components with
  | .error e => .error e
  | .ok parts =>
      match convertConnections cat (component_type_map cat d) d.connections with
      | .error e => .error e
      | .ok conns => .ok { parts := parts, connections := conns }

/-- The caller's document after a completed `convert_standard_to_wokwi` loop: line 60
rewrites `component["properties"]` in place for the 4-digit 7-segment special case,
mutating the dict owned by the caller. Everything else reads only. -/
def convert_standard_to_wokwi_post (cat : Catalog) (d : ShdfDoc) : ShdfDoc :=
  { d with components := d.components.map fun c =>
      if shdf_alias_check cat c.type = "4-digit 7-segment display" then
        { c with properties := [("digits", "4")] }
      else c }

/-! ## `wokwi_to_standard.py` -/

/-- The per-part translation of `convert_wokwi_to_standard` (lines 42-77). The 4-digit
7-segment special case clears `part["attrs"]` before the property extraction, so such a
part contributes no properties. -/
def convert_part (cat : Catalog) (p : WokwiPart) : ShdfComponent :=
  let special := p.type = "wokwi-7segment" ∧ (dget p.attrs "digits").getD "" = "4"
  let wt := if special then "4-digit wokwi-7segment" else p.type
  let attrs := if special then [] else p.attrs
  let st := wokwi_to_shdf_type cat wt
  let props := attrs.foldl
    (fun pr kv =>
      if kv.1 = "color" then dinsert pr "color" (pyLower kv.2)
      else if kv.1 = "value" ∧ st = "resistor" then
        dinsert pr "value"
          (if !strEnds kv.2 "ohm" && !strEnds kv.2 "Ω" then kv.2 ++ " ohm" else kv.2)
      else if kv.1 = "label" ∨ kv.1 = "frequency" ∨ kv.1 = "threshold" then
        dinsert pr kv.1 kv.2
      else pr)
    []
  { id := p.id, type := st, properties := props }

/-- `_convert_connection_point`. Returns `none` for a breadboard point in logical mode
(python `None`). `wokwi_point.split(":", 1)[1]` raises `IndexError` when the point has
no colon. -/
def _convert_connection_point (cat : Catalog) (wp mode : String) :
    Except PyErr (Option String) :=
  if strContains wp "breadboard" then
    if mode = "logical" then .ok none
    else if strContains wp "p" || strContains wp "n" then
      match pySplit1 wp ':' with
      | none => .error .indexError
      | some (_, tail) =>
          match pySplitAll tail '.' with
          | [row, colSide] => .ok (some ("breadboard." ++ filterDigits colSide ++ row))
          | _ => .error (.valueError ("Invalid breadboard point: " ++ wp))
    else
      match pySplit1 wp ':' with
      | none => .error .indexError
      | some (_, tail) =>
          match pySplit1 tail '.' with
          | some (colSide, row) => .ok (some ("breadboard." ++ filterDigits colSide ++ row))
          | none => .error (.valueError ("Invalid breadboard point: " ++ wp))
  else
    match pySplit1 wp ':' with
    | none => .ok (some wp)
    | some (cid, pin) =>
        match wokwi_to_shdf_pin cat cid pin with
        | .error e => .error e
        | .ok sp => .ok (some (cid ++ "." ++ pyLower sp))

/-- The connections loop of `convert_wokwi_to_standard`. -/
def convertWokwiConns (cat : Catalog) (mode : String) :
    List WokwiConn → Except PyErr (List (List String))
  | [] => .ok []
  | c :: rest =>
      if mode = "logical" ∧ strContains c.p1 "breadboard" ∧ strContains c.p2 "breadboard"
      then convertWokwiConns cat mode rest
      else
        match _convert_connection_point cat c.p1 mode with
        | .error e => .error e
        | .ok a =>
            match _convert_connection_point cat c.p2 mode with
            | .error e => .error e
            | .ok b =>
                match convertWokwiConns cat mode rest with
                | .error e => .error e
                | .ok rs =>
                    if (a.getD "") ≠ "" ∧ (b.getD "") ≠ "" then
                      .ok ([(a.getD ""), (b.getD "")] :: rs)
                    else .ok rs

/-- `convert_wokwi_to_standard`. -/
def convert_wokwi_to_standard (cat : Catalog) (w : WokwiDiagram) (mode : String) :
    Except PyErr ShdfDoc :=
  match convertWokwiConns cat mode w.connections with
  | .error e => .error e
  | .ok conns =>
      .ok { components := (w.parts.filter
              (fun p => !(mode == "logical" && p.type == "wokwi-breadboard"))).map
              (convert_part cat),
            connections := conns }

/-- The caller's diagram after `convert_wokwi_to_standard`: line 48 clears
`part["attrs"]` in place for the 4-digit 7-segment special case. -/
def convert_wokwi_to_standard_post (w : WokwiDiagram) : WokwiDiagram :=
  { w with parts := w.parts.map fun p =>
      if p.type = "wokwi-7segment" ∧ (dget p.attrs "digits").getD "" = "4" then
        { p with attrs := [] }
      else p }

/-! ## `schema/validator.py` -/

/-- The in-place type lower-casing that `validate_shdf` performs on the caller's
document: `normalized_data = shdf_data.copy()` is a shallow copy, so the component
dicts are shared and `component["type"] = component["type"].lower()` mutates the
caller's components. -/
def lowerTypes (d : ShdfDoc) : ShdfDoc :=
  { d with components := d.components.map fun c => { c with type := pyLower c.type } }

/-- The component-type error accumulation of `validate_shdf` (lines 47-55), applied to
the normalized (type-lower-cased) document. -/
def shdfTypeErrors (cat : Catalog) (norm : ShdfDoc) : List String :=
  norm.components.foldr
    (fun c es =>
      if (dget (SHDF_TYPE_ALIASES cat) c.type).isNone ∧ c.type ∉ dvalues (TYPE_MAPPINGS cat)
      then ("Invalid component type: " ++ c.type) :: es
      else es)
    []

/-- `validate_shdf`. The jsonschema conformance call is parameterized: modelled from
the spec, since `shdf_schema.json` and the `jsonschema` library are not under `src/`;
§4.5 fixes only that it is a shape check producing one error message on failure
(every failing path of the python function appends exactly one message). -/
def validate_shdf (schemaCheck : ShdfDoc → Option String) (cat : Catalog) (d : ShdfDoc) :
    Bool × List String :=
  let norm := lowerTypes d
  let errors := shdfTypeErrors cat norm
  if !errors.isEmpty then (false, errors)
  else
    match schemaCheck norm with
    | none => (true, [])
    | some m => (false, ["Validation error: " ++ m])

/-- `validate_component_ids`. -/
def validate_component_ids (d : ShdfDoc) : Bool × List String :=
  let ids := d.components.map (·.id)
  let dupErr := if ids.dedup.length = ids.length then [] else ["Component IDs must be unique"]
  let refErrs := d.connections.enum.flatMap fun ic =>
    ic.2.enum.flatMap fun je =>
      match pySplit1 je.2 '.' with
      | none => []
      | some (cid, _) =>
          if cid ∉ ids ∧ cid ≠ "breadboard" then
            ["Connection " ++ toString ic.1 ++ " endpoint " ++ toString je.1 ++
              " references unknown component ID: " ++ cid]
          else []
  let errors := dupErr ++ refErrs
  (errors.isEmpty, errors)

/-- The pin-name patterns of `get_all_pin_patterns` plus the breadboard extras of
`validate_pin_names`, represented semantically: every catalog-derived pattern is
`^re.escape(lit)$`, and the three literal regexes get their own constructors. -/
inductive PinPat where
  | lit (s : String)
  | anyWord
  | stripCell
  | bnRail
deriving DecidableEq, Repr

/-- Pattern-list append with the `if pattern not in list` dedup of the python code. -/
def addPat (l : List PinPat) (p : PinPat) : List PinPat := if p ∈ l then l else l ++ [p]

/-- `get_all_pin_patterns`. -/
def get_all_pin_patterns (cat : Catalog) : List (String × List PinPat) :=
  let tb := pinTables cat
  let d := tb.pin_mappings.foldl
    (fun d tm => dinsert d tm.1 (tm.2.foldl (fun l sm => addPat l (.lit (pyLower sm.2))) []))
    []
  tb.pin_name_aliases.foldl
    (fun d tm =>
      let start := (dget d tm.1).getD []
      dinsert d tm.1 (tm.2.foldl (fun l am => addPat l (.lit (pyLower am.1))) start))
    d

/-- `[a-zA-Z0-9_.]` of the `^[a-zA-Z0-9_.]+$` pattern. -/
def wordChar (c : Char) : Bool := c.isAlpha || c.isDigit || c = '_' || c = '.'

/-- `^pin\d+[a-z]\.[a-z]$` under `re.IGNORECASE`. -/
def matchStripCellPin (s : String) : Bool :=
  match s.data.map Char.toLower with
  | 'p' :: 'i' :: 'n' :: rest =>
      let ds := rest.takeWhile Char.isDigit
      (match rest.drop ds.length with
       | [a, '.', b] => !ds.isEmpty && a.isAlpha && b.isAlpha
       | _ => false)
  | _ => false

/-- `^bn\.\d+$` under `re.IGNORECASE`. -/
def matchBnRailPin (s : String) : Bool :=
  match s.data.map Char.toLower with
  | 'b' :: 'n' :: '.' :: rest => !rest.isEmpty && rest.all Char.isDigit
  | _ => false

/-- `re.match(pattern, pin, re.IGNORECASE)` for the pattern forms that occur. A
`^re.escape(lit)$` match under IGNORECASE is case-insensitive string equality. -/
def matchPinPat (p : PinPat) (s : String) : Bool :=
  match p with
  | .lit t => pyLower s = pyLower t
  | .anyWord => !s.data.isEmpty && s.data.all wordChar
  | .stripCell => matchStripCellPin s
  | .bnRail => matchBnRailPin s

/-- `validate_pin_names`. -/
def validate_pin_names (cat : Catalog) (d : ShdfDoc) : Bool × List String :=
  let pats := dinsert (get_all_pin_patterns cat) "breadboard" [.anyWord, .stripCell, .bnRail]
  let compTypes := d.components.foldl (fun m c => dinsert m c.id c.type) []
  let errors := d.connections.enum.flatMap fun ic =>
    ic.2.enum.flatMap fun je =>
      if strStarts je.2 "breadboard." then []
      else
        match pySplit1 je.2 '.' with
        | none => []
        | some (cid, pin) =>
            match dget compTypes cid with
            | none => []
            | some ty =>
                let t := pyLower ty
                let ps := (dget pats t).getD [.anyWord]
                if ps.any (fun p => matchPinPat p pin) then []
                else
                  ["Connection " ++ toString ic.1 ++ " endpoint " ++ toString je.1 ++
                    " uses invalid pin name: " ++ pin ++ " for component type: " ++ t]
  (errors.isEmpty, errors)

/-- `^breadboard\.(\d+)([a-j])$`: `some column` on a match. -/
def parseBBStrip (s : String) : Option Nat :=
  if leadsWith "breadboard.".data s.data then
    let rest := s.data.drop 11
    let ds := rest.takeWhile Char.isDigit
    match rest.drop ds.length with
    | [r] => if !ds.isEmpty && 'a' ≤ r && r ≤ 'j' then some (digitsToNat ⟨ds⟩) else none
    | _ => none
  else none

/-- `^breadboard\.pin(\d+)([tb])\.([a-j])$`: `some column` on a match. -/
def parseBBPinStrip (s : String) : Option Nat :=
  if leadsWith "breadboard.pin".data s.data then
    let rest := s.data.drop 14
    let ds := rest.takeWhile Char.isDigit
    match rest.drop ds.length with
    | [sd, '.', r] =>
        if !ds.isEmpty && (sd = 't' || sd = 'b') && 'a' ≤ r && r ≤ 'j' then
          some (digitsToNat ⟨ds⟩)
        else none
    | _ => none
  else none

/-- `^breadboard\.bn\.(\d+)$`. -/
def matchBBBnRail (s : String) : Bool :=
  leadsWith "breadboard.bn.".data s.data &&
    (let rest := s.data.drop 14
     !rest.isEmpty && rest.all Char.isDigit)

/-- The per-endpoint body of `validate_breadboard_positions`. The three patterns are
pairwise disjoint (the character after `breadboard.` is a digit, `p`, or `b`
respectively), so the python `for pattern in patterns` loop appends at most one error:
a column-range error for the first two patterns, or a format error when none match.
The third (`bn`) pattern has no column-range check. -/
def bbEndpointErrors (i j : Nat) (e : String) : List String :=
  if strStarts e "breadboard." then
    match parseBBStrip e with
    | some col =>
        if col < 1 ∨ col > 60 then
          ["Connection " ++ toString i ++ " endpoint " ++ toString j ++
            " has invalid breadboard column: " ++ toString col ++ " (must be 1-60)"]
        else []
    | none =>
        match parseBBPinStrip e with
        | some col =>
            if col < 1 ∨ col > 60 then
              ["Connection " ++ toString i ++ " endpoint " ++ toString j ++
                " has invalid breadboard column: " ++ toString col ++ " (must be 1-60)"]
            else []
        | none =>
            if matchBBBnRail e then []
            else
              ["Connection " ++ toString i ++ " endpoint " ++ toString j ++
                " has invalid breadboard position format: " ++ e]
  else []

/-- `validate_breadboard_positions`. -/
def validate_breadboard_positions (d : ShdfDoc) : Bool × List String :=
  let errors := d.connections.enum.flatMap fun ic =>
    ic.2.enum.flatMap fun je => bbEndpointErrors ic.1 je.1 je.2
  (errors.isEmpty, errors)

/-- `validate_shdf_document`. The three later checks see the document as mutated in
place by `validate_shdf` (component types lower-cased). -/
def validate_shdf_document (schemaCheck : ShdfDoc → Option String) (cat : Catalog)
    (d : ShdfDoc) : Bool × List String :=
  let r1 := validate_shdf schemaCheck cat d
  if !r1.1 then (false, r1.2)
  else
    let d1 := lowerTypes d
    let all := r1.2 ++ (validate_component_ids d1).2 ++ (validate_pin_names cat d1).2 ++
      (validate_breadboard_positions d1).2
    (all.isEmpty, all)

/-- The caller's document after `validate_shdf` (and hence after
`validate_shdf_document`): component types are lower-cased in place; nothing else in
the validator writes to the document. -/
def validate_shdf_document_post (d : ShdfDoc) : ShdfDoc := lowerTypes d

/-! ## `evaluation/hardware_metrics.py` -/

/-- `tuple(sorted(connection[:2]))` — the unordered endpoint pair key. -/
def pairKey (conn : List String) : List String :=
  (conn.take 2).insertionSort (· ≤ ·)

/-- The loop of `check_duplicate_connections`: `seen` models the python set. -/
def dupLoop : Nat → List (List String) → List (List String) →
    Nat × List (Nat × List String)
  | _, _, [] => (0, [])
  | i, seen, c :: rest =>
      let k := pairKey c
      if k ∈ seen then
        let r := dupLoop (i + 1) seen rest
        (r.1 + 1, (i, c) :: r.2)
      else dupLoop (i + 1) (k :: seen) rest

/-- `check_duplicate_connections`: `(duplicate_connections, duplicate_connection_list)`. -/
def check_duplicate_connections (d : ShdfDoc) : Nat × List (Nat × List String) :=
  dupLoop 0 [] d.connections

/-- Value normalization of `check_component_attrs` (lines 317-318): after `.lower()`
the `"Ω"` replacement can no longer fire, but it is kept for fidelity. -/
def normOhm (v : String) : String :=
  pyStrip (pyReplace (pyReplace (pyReplace (pyLower v) "ohm" "") "ω" "") "Ω" "")

/-- A reference attribute entry recorded by `check_component_attrs`. -/
inductive RefAttr where
  | resistorVal (v : String)
  | ledColor (v : String)
deriving DecidableEq, Repr

/-- The reference-side dict of `check_component_attrs`. -/
def refAttrDict (checkLed : Bool) (ref : ShdfDoc) : List (String × RefAttr) :=
  ref.components.foldl
    (fun m c =>
      if strContains (pyLower c.type) "resistor" ∧ (dget c.properties "value").isSome then
        dinsert m c.id (.resistorVal ((dget c.properties "value").getD ""))
      else if checkLed ∧ strContains (pyLower c.type) "led" ∧
          (dget c.properties "color").isSome then
        dinsert m c.id (.ledColor ((dget c.properties "color").getD ""))
      else m)
    []

/-- `check_component_attrs`: `(incorrect_attrs, incorrect_attrs_list)` with list
entries `(component_id, attribute, generated_value, reference_value)`. Components
carry SHDF `properties` (the `attrs` fallback of `comp.get("attrs", ...)` applies to
raw Wokwi dicts, which this model does not feed to the metrics engine). -/
def check_component_attrs (gen ref : ShdfDoc) (project_path : Option String) :
    Nat × List (String × String × String × String) :=
  let checkLed := (project_path.getD "").length > 0 ∧
    strContains (project_path.getD "") "traffic_light"
  let refs := refAttrDict checkLed ref
  let bad := gen.components.foldr
    (fun c acc =>
      let t := pyLower c.type
      if strContains t "resistor" then
        match dget refs c.id with
        | some (.resistorVal rv) =>
            let gv := (dget c.properties "value").getD ""
            if normOhm gv ≠ normOhm rv then (c.id, "value", gv, rv) :: acc else acc
        | _ => acc
      else if checkLed ∧ strContains t "led" then
        match dget refs c.id with
        | some (.ledColor rv) =>
            let gv := (dget c.properties "color").getD ""
            if pyStrip (pyLower gv) ≠ pyStrip (pyLower rv) then
              (c.id, "color", gv, rv) :: acc
            else acc
        | _ => acc
      else acc)
    []
  (bad.length, bad)

/-! ## A concrete catalog instance

Modelled from the spec: `module_info.json` (the catalog source document, §6) is not
under `src/`. `Cat0` is a small instance of the record shape that §6 fixes, listing the
component types the spec names (§4.4's fixed-position parts and the pin examples of
§4.2); it is used to instantiate the catalog-generic theorems on concrete inputs. -/
def Cat0 : Catalog := [
  ⟨"wokwi-arduino-uno", "Arduino Uno", ["arduino", "uno"],
    [⟨"13", "Digital pin 13", ["d13"]⟩,
     ⟨"GND.1", "Ground pin 1", ["gnd"]⟩,
     ⟨"A0", "Analog input 0", []⟩]⟩,
  ⟨"wokwi-led", "LED", ["light emitting diode"],
    [⟨"A", "Anode", ["anode"]⟩, ⟨"C", "Cathode", ["cathode"]⟩]⟩,
  ⟨"wokwi-resistor", "Resistor", [],
    [⟨"1", "Terminal 1", []⟩, ⟨"2", "Terminal 2", []⟩]⟩,
  ⟨"wokwi-breadboard", "Breadboard", [], []⟩]

/-! ## The breadboard address space (§3)

Enumerations of the valid breadboard addresses: columns 1..60, strip rows a..j,
the four power rails, in the neutral (`breadboard.<col><row>` /
`breadboard.<col><rail>`) and simulator (`breadboard:<col><side>.<row>` /
`breadboard:<rail>.<col>`) notations; a strip address is valid only with the
side that matches its row half (rows a..e live on the top half). -/

def bbRowsChars : List Char := ['a', 'b', 'c', 'd', 'e', 'f', 'g', 'h', 'i', 'j']

def bbRails : List String := ["tp", "tn", "bp", "bn"]

def bbCols : List Nat := (List.range 60).map (· + 1)

def neutralStripAddr (col : Nat) (r : Char) : String :=
  "breadboard." ++ toString col ++ String.singleton r

def wokwiStripAddr (col : Nat) (r : Char) : String :=
  "breadboard:" ++ toString col ++ (if r ∈ ['a', 'b', 'c', 'd', 'e'] then "t" else "b") ++
    "." ++ String.singleton r

def neutralRailAddr (col : Nat) (rl : String) : String :=
  "breadboard." ++ toString col ++ rl

def wokwiRailAddr (col : Nat) (rl : String) : String :=
  "breadboard:" ++ rl ++ "." ++ toString col

/-! ## Helper lemmas -/

theorem convert_to_wokwi_point_bb_indep (cat : Catalog) (ctm : List (String × String))
    (p : String) (h : strContains p "breadboard" = true) :
    _convert_to_wokwi_point cat ctm p = _convert_to_wokwi_point [] [] p := by
  simp only [_convert_to_wokwi_point, h, if_true]

theorem convert_connection_point_bb_indep (cat : Catalog) (p m : String)
    (h : strContains p "breadboard" = true) :
    _convert_connection_point cat p m = _convert_connection_point [] p m := by
  simp only [_convert_connection_point, h, if_true]

theorem bbStripFacts : ∀ col ∈ bbCols, ∀ r ∈ bbRowsChars,
    strContains (neutralStripAddr col r) "breadboard" = true ∧
    strContains (wokwiStripAddr col r) "breadboard" = true ∧
    _convert_to_wokwi_point [] [] (neutralStripAddr col r) = .ok (wokwiStripAddr col r) ∧
    _convert_connection_point [] (wokwiStripAddr col r) "physical" =
      .ok (some (neutralStripAddr col r)) := by decide

theorem bbRailFacts : ∀ col ∈ bbCols, ∀ rl ∈ bbRails,
    strContains (neutralRailAddr col rl) "breadboard" = true ∧
    strContains (wokwiRailAddr col rl) "breadboard" = true ∧
    _convert_to_wokwi_point [] [] (neutralRailAddr col rl) = .ok (wokwiRailAddr col rl) ∧
    _convert_connection_point [] (wokwiRailAddr col rl) "physical" =
      .ok (some (neutralRailAddr col rl)) := by decide

theorem mem_bbCols {col : Nat} (h1 : 1 ≤ col) (h2 : col ≤ 60) : col ∈ bbCols := by
  simp only [bbCols, List.mem_map, List.mem_range]
  exact ⟨col - 1, by omega, by omega⟩

/-! ## C2 -/

/-- C2: round-trip identity for breadboard addresses. For every valid breadboard
address — a strip cell `breadboard.<col><row>` / `breadboard:<col><side>.<row>` (with
the side determined by the row half) or a power rail `breadboard.<col><rail>` /
`breadboard:<rail>.<col>`, column in 1..60 — `_convert_to_wokwi_point` maps the
neutral form to exactly the simulator form and `_convert_connection_point` (physical
mode) maps the simulator form back to exactly the neutral form, for any catalog and
component-type map; hence both compositions restore the original string. -/
theorem C2_breadboard_roundtrip (cat : Catalog) (ctm : List (String × String))
    (col : Nat) (hcol : col ∈ bbCols) :
    (∀ r ∈ bbRowsChars,
      _convert_to_wokwi_point cat ctm (neutralStripAddr col r) = .ok (wokwiStripAddr col r) ∧
      _convert_connection_point cat (wokwiStripAddr col r) "physical" =
        .ok (some (neutralStripAddr col r))) ∧
    (∀ rl ∈ bbRails,
      _convert_to_wokwi_point cat ctm (neutralRailAddr col rl) = .ok (wokwiRailAddr col rl) ∧
      _convert_connection_point cat (wokwiRailAddr col rl) "physical" =
        .ok (some (neutralRailAddr col rl))) := by
  constructor
  · intro r hr
    obtain ⟨hn, hw, hfwd, hbwd⟩ := bbStripFacts col hcol r hr
    rw [convert_to_wokwi_point_bb_indep cat ctm _ hn,
      convert_connection_point_bb_indep cat _ _ hw]
    exact ⟨hfwd, hbwd⟩
  · intro rl hrl
    obtain ⟨hn, hw, hfwd, hbwd⟩ := bbRailFacts col hcol rl hrl
    rw [convert_to_wokwi_point_bb_indep cat ctm _ hn,
      convert_connection_point_bb_indep cat _ _ hw]
    exact ⟨hfwd, hbwd⟩

/-- Witness for C2 at column 30: the strip cell `breadboard.30c` ↔ `breadboard:30t.c`
and the rail `breadboard.30tn` ↔ `breadboard:tn.30` round-trip. -/
theorem C2_breadboard_roundtrip_witness :
    (_convert_to_wokwi_point Cat0 [] "breadboard.30c" = .ok "breadboard:30t.c" ∧
      _convert_connection_point Cat0 "breadboard:30t.c" "physical" =
        .ok (some "breadboard.30c")) ∧
    (_convert_to_wokwi_point Cat0 [] "breadboard.30tn" = .ok "breadboard:tn.30" ∧
      _convert_connection_point Cat0 "breadboard:tn.30" "physical" =
        .ok (some "breadboard.30tn")) :=
  ⟨(C2_breadboard_roundtrip Cat0 [] 30 (by decide)).1 'c' (by decide),
   (C2_breadboard_roundtrip Cat0 [] 30 (by decide)).2 "tn" (by decide)⟩

/-! ## C8 -/

/-- C8: row/side determinism. Translating a neutral strip address to the simulator
format, the side letter depends only on the row letter — `a`..`e` give side `t` and
`f`..`j` give side `b` — identically for every column 1..60, for any catalog and
component-type map (`wokwiStripAddr` spells out the `if row ∈ a..e then t else b`
rule). -/
theorem C8_row_side_determinism (cat : Catalog) (ctm : List (String × String))
    (col : Nat) (r : Char) (h1 : 1 ≤ col) (h2 : col ≤ 60) (hr : r ∈ bbRowsChars) :
    _convert_to_wokwi_point cat ctm (neutralStripAddr col r) =
      .ok ("breadboard:" ++ toString col ++
        (if r ∈ ['a', 'b', 'c', 'd', 'e'] then "t" else "b") ++ "." ++
        String.singleton r) := by
  obtain ⟨hn, _, hfwd, _⟩ := bbStripFacts col (mem_bbCols h1 h2) r hr
  rw [convert_to_wokwi_point_bb_indep cat ctm _ hn]
  exact hfwd

/-- Witness for C8: row `c` gives side `t` and row `h` gives side `b`, at two
different columns. -/
theorem C8_row_side_determinism_witness :
    _convert_to_wokwi_point Cat0 [] (neutralStripAddr 13 'c') =
      .ok ("breadboard:" ++ toString 13 ++
        (if 'c' ∈ ['a', 'b', 'c', 'd', 'e'] then "t" else "b") ++ "." ++
        String.singleton 'c') ∧
    _convert_to_wokwi_point Cat0 [] (neutralStripAddr 41 'h') =
      .ok ("breadboard:" ++ toString 41 ++
        (if 'h' ∈ ['a', 'b', 'c', 'd', 'e'] then "t" else "b") ++ "." ++
        String.singleton 'h') :=
  ⟨C8_row_side_determinism Cat0 [] 13 'c' (by decide) (by decide) (by decide),
   C8_row_side_determinism Cat0 [] 41 'h' (by decide) (by decide) (by decide)⟩

/-! ## C7 -/

/-- C7 counterexample: the endpoint `breadboard.bn.61` is a rail-with-column endpoint
whose column 61 is outside 1..60, yet `validate_breadboard_positions` reports no
error, contradicting "reports an out-of-range error exactly when the column number is
outside 1..60" for rail-with-column endpoints. -/
theorem C7_counterexample :
    validate_breadboard_positions ⟨[], [["breadboard.bn.61"]]⟩ = (true, []) := by decide

theorem leadsWith_self_append : ∀ (p l : List Char), leadsWith p (p ++ l) = true := by
  intro p l
  induction p with
  | nil => rfl
  | cons c cs ih => simp [leadsWith, ih]

theorem leadsWith_append_cancel (p : List Char) :
    ∀ (q l : List Char), leadsWith (p ++ q) (p ++ l) = leadsWith q l := by
  induction p with
  | nil => intro q l; rfl
  | cons c cs ih => intro q l; simp [leadsWith, ih]

theorem takeWhileAppendAll (p : Char → Bool) :
    ∀ (l l' : List Char), (∀ c ∈ l, p c = true) →
      (l ++ l').takeWhile p = l ++ l'.takeWhile p := by
  intro l
  induction l with
  | nil => intro l' _; rfl
  | cons c cs ih =>
      intro l' h
      simp [List.takeWhile_cons, h c (List.mem_cons_self _ _),
        ih l' fun x hx => h x (List.mem_cons_of_mem _ hx)]

theorem dropLenAppend : ∀ (l l' : List Char), (l ++ l').drop l.length = l' := by
  intro l l'
  induction l with
  | nil => rfl
  | cons c cs ih =>
      simp only [List.cons_append, List.length_cons, List.drop_succ_cons]
      exact ih

/-- On a single-endpoint document, `validate_breadboard_positions` returns exactly the
per-endpoint errors at connection 0, endpoint 0. -/
theorem validate_bb_single (e : String) :
    (validate_breadboard_positions ⟨[], [[e]]⟩).2 = bbEndpointErrors 0 0 e := by
  simp [validate_breadboard_positions, List.enum, List.enumFrom]

/-- `^breadboard\.(\d+)([a-j])$` matches `breadboard.<digits><row>` and captures the
parsed column, for every nonempty digit string and every row a..j. -/
theorem parseBBStrip_strip (ds : List Char) (r : Char) (hne : ds ≠ [])
    (hdig : ∀ c ∈ ds, c.isDigit = true) (hr : r ∈ bbRowsChars) :
    parseBBStrip (String.mk ("breadboard.".data ++ (ds ++ [r]))) =
      some (digitsToNat (String.mk ds)) := by
  obtain ⟨⟨hr1, hr2⟩, hrd⟩ :=
    (by decide : ∀ x ∈ bbRowsChars, (('a' ≤ x ∧ x ≤ 'j') ∧ x.isDigit = false)) r hr
  have hemp : ds.isEmpty = false := by
    cases ds with
    | nil => exact absurd rfl hne
    | cons _ _ => rfl
  simp only [parseBBStrip]
  rw [if_pos (leadsWith_self_append "breadboard.".data (ds ++ [r]))]
  rw [show ("breadboard.".data ++ (ds ++ [r])).drop 11 = ds ++ [r] from
    dropLenAppend "breadboard.".data (ds ++ [r])]
  rw [takeWhileAppendAll Char.isDigit ds [r] hdig]
  rw [show List.takeWhile Char.isDigit [r] = [] by simp [List.takeWhile_cons, hrd]]
  rw [List.append_nil, dropLenAppend ds [r]]
  simp [hemp, hr1, hr2]

/-- The strip regex does not match a `breadboard.bn.<digits>` endpoint. -/
theorem parseBBStrip_bn (ds : List Char) :
    parseBBStrip (String.mk ("breadboard.bn.".data ++ ds)) = none := by
  have hsplit : "breadboard.bn.".data ++ ds =
      "breadboard.".data ++ ('b' :: 'n' :: '.' :: ds) := rfl
  simp only [parseBBStrip, hsplit]
  rw [if_pos (leadsWith_self_append "breadboard.".data ('b' :: 'n' :: '.' :: ds))]
  rw [show ("breadboard.".data ++ ('b' :: 'n' :: '.' :: ds)).drop 11 =
    'b' :: 'n' :: '.' :: ds from dropLenAppend "breadboard.".data _]
  rfl

/-- The pin-strip regex does not match a `breadboard.<digits><row>` endpoint. -/
theorem parseBBPinStrip_strip (ds : List Char) (tl : List Char) (hne : ds ≠ [])
    (hdig : ∀ c ∈ ds, c.isDigit = true) :
    parseBBPinStrip (String.mk ("breadboard.".data ++ (ds ++ tl))) = none := by
  have hlw : leadsWith "breadboard.pin".data ("breadboard.".data ++ (ds ++ tl)) =
      false := by
    rw [show ("breadboard.pin".data : List Char) =
      "breadboard.".data ++ ['p', 'i', 'n'] from rfl, leadsWith_append_cancel]
    cases ds with
    | nil => exact absurd rfl hne
    | cons d dt =>
        have hd := hdig d (List.mem_cons_self _ _)
        have hpd : ¬('p' = d) := by
          intro h
          rw [← h] at hd
          exact absurd hd (by decide)
        simp [leadsWith, hpd]
  simp only [parseBBPinStrip, hlw, Bool.false_eq_true, if_false]

/-- The pin-strip regex does not match a `breadboard.bn.<digits>` endpoint. -/
theorem parseBBPinStrip_bn (ds : List Char) :
    parseBBPinStrip (String.mk ("breadboard.bn.".data ++ ds)) = none := by
  have hlw : leadsWith "breadboard.pin".data ("breadboard.bn.".data ++ ds) = false := by
    rw [show ("breadboard.pin".data : List Char) =
      "breadboard.".data ++ ['p', 'i', 'n'] from rfl,
      show "breadboard.bn.".data ++ ds =
        "breadboard.".data ++ ('b' :: 'n' :: '.' :: ds) from rfl,
      leadsWith_append_cancel]
    rfl
  simp only [parseBBPinStrip, hlw, Bool.false_eq_true, if_false]

/-- The `bn` rail regex matches `breadboard.bn.<digits>` for every nonempty digit
string — with no constraint on the column value. -/
theorem matchBBBnRail_bn (ds : List Char) (hne : ds ≠ [])
    (hdig : ∀ c ∈ ds, c.isDigit = true) :
    matchBBBnRail (String.mk ("breadboard.bn.".data ++ ds)) = true := by
  have hemp : ds.isEmpty = false := by
    cases ds with
    | nil => exact absurd rfl hne
    | cons _ _ => rfl
  simp only [matchBBBnRail]
  rw [leadsWith_self_append "breadboard.bn.".data ds]
  rw [show ("breadboard.bn.".data ++ ds).drop 14 = ds from
    dropLenAppend "breadboard.bn.".data ds]
  simp only [hemp, Bool.not_false, Bool.true_and, List.all_eq_true]
  exact hdig

/-- C7 (amended): `validate_breadboard_positions` reports a format error for every
breadboard endpoint matching none of the three grammars, and for the strip grammar
`breadboard.<col><row>` (any digit string `<col>`, any row a..j) reports an
out-of-range error exactly when the column is outside 1..60 (in particular
`breadboard.61a` errors and `breadboard.60a` passes) — but the rail-with-column
grammar `breadboard.bn.<col>` is never range-checked: every column passes. -/
theorem C7_amended_bb_validation :
    (∀ e : String, strStarts e "breadboard." = true → parseBBStrip e = none →
      parseBBPinStrip e = none → matchBBBnRail e = false →
      (validate_breadboard_positions ⟨[], [[e]]⟩).2 =
        ["Connection 0 endpoint 0 has invalid breadboard position format: " ++ e]) ∧
    (∀ ds : List Char, ds ≠ [] → (∀ c ∈ ds, c.isDigit = true) → ∀ r ∈ bbRowsChars,
      ((validate_breadboard_positions
          ⟨[], [[String.mk ("breadboard.".data ++ (ds ++ [r]))]]⟩).2 = [] ↔
        (1 ≤ digitsToNat (String.mk ds) ∧ digitsToNat (String.mk ds) ≤ 60))) ∧
    (∀ ds : List Char, ds ≠ [] → (∀ c ∈ ds, c.isDigit = true) →
      (validate_breadboard_positions
          ⟨[], [[String.mk ("breadboard.bn.".data ++ ds)]]⟩).2 = []) ∧
    (validate_breadboard_positions ⟨[], [["breadboard.61a"]]⟩).2 ≠ [] ∧
    (validate_breadboard_positions ⟨[], [["breadboard.60a"]]⟩).2 = [] := by
  refine ⟨?_, ?_, ?_, by decide, by decide⟩
  · intro e h1 h2 h3 h4
    rw [validate_bb_single]
    simp only [bbEndpointErrors]
    rw [h1, if_pos rfl, h2, h3, h4]
    rfl
  · intro ds hne hdig r hr
    have hstart : strStarts (String.mk ("breadboard.".data ++ (ds ++ [r])))
        "breadboard." = true :=
      leadsWith_self_append "breadboard.".data (ds ++ [r])
    rw [validate_bb_single]
    simp only [bbEndpointErrors, hstart, if_true, parseBBStrip_strip ds r hne hdig hr]
    by_cases hc : digitsToNat (String.mk ds) < 1 ∨ digitsToNat (String.mk ds) > 60
    · rw [if_pos hc]
      have hfalse : ¬(1 ≤ digitsToNat (String.mk ds) ∧
          digitsToNat (String.mk ds) ≤ 60) := by omega
      simp [hfalse]
    · rw [if_neg hc]
      have htrue : 1 ≤ digitsToNat (String.mk ds) ∧
          digitsToNat (String.mk ds) ≤ 60 := by omega
      simp [htrue]
  · intro ds hne hdig
    have hstart : strStarts (String.mk ("breadboard.bn.".data ++ ds))
        "breadboard." = true := by
      rw [show "breadboard.bn.".data ++ ds =
        "breadboard.".data ++ ('b' :: 'n' :: '.' :: ds) from rfl]
      exact leadsWith_self_append "breadboard.".data ('b' :: 'n' :: '.' :: ds)
    rw [validate_bb_single]
    simp only [bbEndpointErrors]
    rw [hstart, if_pos rfl, parseBBStrip_bn ds, parseBBPinStrip_bn ds,
      matchBBBnRail_bn ds hne hdig]
    rfl

/-- Witness for C7 (amended): the non-matching endpoint `breadboard.qq`, the strip
bound at column 61, and the unchecked rail at column 61. -/
theorem C7_amended_bb_validation_witness :
    (validate_breadboard_positions ⟨[], [["breadboard.qq"]]⟩).2 =
      ["Connection 0 endpoint 0 has invalid breadboard position format: " ++
        "breadboard.qq"] ∧
    ((validate_breadboard_positions
        ⟨[], [[String.mk ("breadboard.".data ++ (['6', '1'] ++ ['a']))]]⟩).2 = [] ↔
      (1 ≤ digitsToNat (String.mk ['6', '1']) ∧
        digitsToNat (String.mk ['6', '1']) ≤ 60)) ∧
    (validate_breadboard_positions
        ⟨[], [[String.mk ("breadboard.bn.".data ++ ['6', '1'])]]⟩).2 = [] :=
  ⟨C7_amended_bb_validation.1 "breadboard.qq" (by decide) (by decide) (by decide)
     (by decide),
   C7_amended_bb_validation.2.1 ['6', '1'] (by decide) (by decide) 'a' (by decide),
   C7_amended_bb_validation.2.2.1 ['6', '1'] (by decide) (by decide)⟩

/-! ## C9 -/

theorem pairKey_swap (a b : String) : pairKey [b, a] = pairKey [a, b] := by
  simp only [pairKey, List.take, List.insertionSort, List.orderedInsert]
  rcases le_total a b with hab | hba
  · by_cases hba2 : b ≤ a
    · have : a = b := le_antisymm hab hba2
      subst this; rfl
    · rw [if_neg hba2, if_pos hab]
  · by_cases hab2 : a ≤ b
    · have : a = b := le_antisymm hab2 hba
      subst this; rfl
    · rw [if_pos hba, if_neg hab2]

/-- C9: duplicate-connection detection is order-independent. For any two endpoint
strings `a`, `b`, a document with the connections `[a, b]` and `[b, a]` flags exactly
one duplicate (the second connection, at index 1): the endpoints are compared as an
unordered (sorted) pair. -/
theorem C9_duplicate_order_indep (a b : String) :
    check_duplicate_connections ⟨[], [[a, b], [b, a]]⟩ = (1, [(1, [b, a])]) := by
  show dupLoop 0 [] [[a, b], [b, a]] = (1, [(1, [b, a])])
  rw [dupLoop]
  simp only [List.not_mem_nil, if_false]
  rw [dupLoop]
  simp only [pairKey_swap a b, List.mem_singleton, if_pos rfl]
  simp [dupLoop]

/-! ## C5 -/

/-- C5 counterexample: a resistor value `"4.7k"` is not stored as `"4700"`. In the
simulator→neutral direction the stored neutral value is `"4.7k ohm"` (≠ `"4700"`),
which `check_component_attrs` reports as incorrect against the reference
`"4700 ohm"`; in the neutral→simulator direction the value raises `ValueError`
(`"4.7000"` is not an integer string after the `k` expansion). -/
theorem C5_counterexample :
    convert_wokwi_to_standard Cat0
      ⟨[⟨"wokwi-resistor", "r1", 0, 0, [("value", "4.7k")], none⟩], []⟩ "logical" =
      .ok ⟨[⟨"r1", "resistor", [("value", "4.7k ohm")]⟩], []⟩ ∧
    ("4.7k ohm" : String) ≠ "4700" ∧
    check_component_attrs ⟨[⟨"r1", "resistor", [("value", "4.7k ohm")]⟩], []⟩
      ⟨[⟨"r1", "resistor", [("value", "4700 ohm")]⟩], []⟩ none =
      (1, [("r1", "value", "4.7k ohm", "4700 ohm")]) ∧
    convert_standard_to_wokwi Cat0 ⟨[⟨"r1", "resistor", [("value", "4.7k")]⟩], []⟩
      "logical" = .error (.valueError "Resistor attribute should be an integer.") := by
  decide

/-- C5 (amended): for an integer-formed resistor value the normalization behaves as
claimed — neutral `"4700 ohm"` converts to simulator attrs value `"4700"`, simulator
attrs `"4700"` converts to stored neutral `"4700 ohm"`, and `check_component_attrs`
judges a stored `"4700"` equal to a reference of `"4700 ohm"` after normalization,
reporting no incorrect attribute. (The claim's `"4.7k"` input instead aborts or is
stored unnormalized — see the counterexample.) -/
theorem C5_amended_resistor_value :
    convert_standard_to_wokwi Cat0 ⟨[⟨"r1", "resistor", [("value", "4700 ohm")]⟩], []⟩
      "logical" =
      .ok ⟨[⟨"wokwi-resistor", "resistor1", 100, 150, [("value", "4700")], some 90⟩], []⟩ ∧
    convert_wokwi_to_standard Cat0
      ⟨[⟨"wokwi-resistor", "r1", 0, 0, [("value", "4700")], none⟩], []⟩ "logical" =
      .ok ⟨[⟨"r1", "resistor", [("value", "4700 ohm")]⟩], []⟩ ∧
    check_component_attrs ⟨[⟨"r1", "resistor", [("value", "4700")]⟩], []⟩
      ⟨[⟨"r1", "resistor", [("value", "4700 ohm")]⟩], []⟩ none = (0, []) := by
  decide

/-! ## C6 -/

theorem validate_shdf_valid_iff (f : ShdfDoc → Option String) (cat : Catalog)
    (d : ShdfDoc) :
    (validate_shdf f cat d).1 = true ↔ (validate_shdf f cat d).2 = [] := by
  simp only [validate_shdf]
  cases herr : shdfTypeErrors cat (lowerTypes d) with
  | nil =>
      cases hf : f (lowerTypes d) <;> simp [hf]
  | cons x xs => simp

/-- C6: `validate_shdf_document` returns `(is_valid, errors)` with `is_valid` true
exactly when `errors` is empty; when the schema check `validate_shdf` fails the
function returns exactly its errors and the later checks are skipped; otherwise the
three later checks (on the in-place type-lower-cased document) all run and their
error lists are concatenated in order, never truncated. -/
theorem C6_validator_aggregation (f : ShdfDoc → Option String) (cat : Catalog)
    (d : ShdfDoc) :
    ((validate_shdf_document f cat d).1 = true ↔ (validate_shdf_document f cat d).2 = []) ∧
    ((validate_shdf f cat d).1 = false →
      validate_shdf_document f cat d = (false, (validate_shdf f cat d).2)) ∧
    ((validate_shdf f cat d).1 = true →
      (validate_shdf_document f cat d).2 =
        (validate_component_ids (lowerTypes d)).2 ++
          (validate_pin_names cat (lowerTypes d)).2 ++
          (validate_breadboard_positions (lowerTypes d)).2) := by
  have hiff := validate_shdf_valid_iff f cat d
  cases hv : validate_shdf f cat d with
  | mk ok1 e1 =>
    rw [hv] at hiff
    simp only [validate_shdf_document, hv]
    cases ok1 with
    | false =>
        simp only at hiff ⊢
        refine ⟨?_, fun _ => rfl, fun h => absurd h (by simp)⟩
        exact hiff
    | true =>
        have he1 : e1 = [] := hiff.mp rfl
        subst he1
        simp only [Bool.not_true, if_neg, List.nil_append]
        refine ⟨?_, fun h => absurd h (by simp), fun _ => rfl⟩
        cases (validate_component_ids (lowerTypes d)).2 ++
            (validate_pin_names cat (lowerTypes d)).2 ++
            (validate_breadboard_positions (lowerTypes d)).2 <;> simp

/-- Witness for C6 with a trivially passing schema check, on a valid one-LED document
and on a document with an unresolvable type. -/
theorem C6_validator_aggregation_witness :
    validate_shdf_document (fun _ => none) Cat0
      ⟨[⟨"led1", "LED", []⟩], [["led1.a", "led1.c"]]⟩ =
      (true, []) ∧
    validate_shdf_document (fun _ => none) Cat0 ⟨[⟨"led1", "gizmo", []⟩], []⟩ =
      (false, ["Invalid component type: gizmo"]) := by
  have h1 := C6_validator_aggregation (fun _ => none) Cat0
    ⟨[⟨"led1", "LED", []⟩], [["led1.a", "led1.c"]]⟩
  have h2 := C6_validator_aggregation (fun _ => none) Cat0 ⟨[⟨"led1", "gizmo", []⟩], []⟩
  refine ⟨?_, h2.2.1 (by decide)⟩
  have := h1.1.mpr (by decide)
  have hsnd : (validate_shdf_document (fun _ => none) Cat0
      ⟨[⟨"led1", "LED", []⟩], [["led1.a", "led1.c"]]⟩).2 = [] := by decide
  exact Prod.ext this hsnd

/-! ## C10 -/

theorem listMapSelf {α : Type} (f : α → α) :
    ∀ l : List α, (∀ x ∈ l, f x = x) → l.map f = l
  | [], _ => rfl
  | x :: xs, h => by
      rw [List.map_cons, h x (List.mem_cons_self x xs),
        listMapSelf f xs fun y hy => h y (List.mem_cons_of_mem x hy)]

/-- C10 counterexample: validation mutates its input. `validate_shdf` shallow-copies
the document and lower-cases each `component["type"]` in place, so after
`validate_shdf_document` the caller's component types read differently: a document
with type `"LED"` ends up with type `"led"`. -/
theorem C10_counterexample :
    validate_shdf_document_post ⟨[⟨"led1", "LED", []⟩], []⟩ ≠
      (⟨[⟨"led1", "LED", []⟩], []⟩ : ShdfDoc) ∧
    validate_shdf_document_post ⟨[⟨"led1", "LED", []⟩], []⟩ =
      (⟨[⟨"led1", "led", []⟩], []⟩ : ShdfDoc) := by
  decide

/-- C10 (amended): the conversions and the validator leave the caller's input
unchanged except for two in-place writes — `validate_shdf` lower-cases component
types (so a document whose types are already lower-case is unchanged), and the
4-digit 7-segment special cases rewrite `component["properties"]` /
`part["attrs"]` (so documents without that special case are unchanged). -/
theorem C10_amended_no_mutation (cat : Catalog) (d : ShdfDoc) (w : WokwiDiagram)
    (h1 : ∀ c ∈ d.components, pyLower c.type = c.type)
    (h2 : ∀ c ∈ d.components, shdf_alias_check cat c.type ≠ "4-digit 7-segment display")
    (h3 : ∀ p ∈ w.parts, ¬(p.type = "wokwi-7segment" ∧ (dget p.attrs "digits").getD "" = "4")) :
    validate_shdf_document_post d = d ∧
    convert_standard_to_wokwi_post cat d = d ∧
    convert_wokwi_to_standard_post w = w := by
  refine ⟨?_, ?_, ?_⟩
  · show lowerTypes d = d
    unfold lowerTypes
    rw [listMapSelf _ d.components fun c hc => ?_]
    · cases c with
      | mk i t p => simp only; rw [show pyLower t = t from h1 ⟨i, t, p⟩ hc]
  · unfold convert_standard_to_wokwi_post
    rw [listMapSelf _ d.components fun c hc => if_neg (h2 c hc)]
  · unfold convert_wokwi_to_standard_post
    rw [listMapSelf _ w.parts fun p hp => if_neg (h3 p hp)]

/-- Witness for C10 on a lower-case-typed document and an ordinary diagram. -/
theorem C10_amended_no_mutation_witness :
    validate_shdf_document_post ⟨[⟨"led1", "led", []⟩], []⟩ =
      (⟨[⟨"led1", "led", []⟩], []⟩ : ShdfDoc) ∧
    convert_standard_to_wokwi_post Cat0 ⟨[⟨"led1", "led", []⟩], []⟩ =
      (⟨[⟨"led1", "led", []⟩], []⟩ : ShdfDoc) ∧
    convert_wokwi_to_standard_post
      ⟨[⟨"wokwi-led", "led1", 0, 0, [("color", "red")], none⟩], []⟩ =
      (⟨[⟨"wokwi-led", "led1", 0, 0, [("color", "red")], none⟩], []⟩ : WokwiDiagram) :=
  C10_amended_no_mutation Cat0 ⟨[⟨"led1", "led", []⟩], []⟩
    ⟨[⟨"wokwi-led", "led1", 0, 0, [("color", "red")], none⟩], []⟩
    (by decide) (by decide) (by decide)

/-! ## C4 -/

/-- C4 counterexample: `shdf_to_wokwi_pin` raises `KeyError` on an unresolvable pin
(rather than warning and returning the original string), and `wokwi_to_shdf_pin`
raises `UnboundLocalError` on an unresolvable component-type prefix, so it is false
that neither function raises on an unresolvable input. -/
theorem C4_counterexample :
    shdf_to_wokwi_pin Cat0 "nonexistent" "led" = .error .keyError ∧
    wokwi_to_shdf_pin Cat0 "gizmo1" "x" = .error .unboundLocalError := by decide

/-- C4 (amended): in `wokwi_to_shdf_pin` an unknown pin with a resolvable
component-type prefix is returned unchanged (without raising), but an unresolvable
component-type prefix raises `UnboundLocalError` (the warning handler reads an
unassigned local); in `shdf_to_wokwi_pin` the component-type alias failure alone is a
non-fatal warning, but the final reverse lookups raise `KeyError` when the (alias
resolved) type or pin is absent, so the original pin is never returned on failure. -/
theorem C4_amended_pin_mappers (cat : Catalog) :
    (∀ cid pin,
      dget (pinTables cat).component_type_aliases (pyLower (stripTrailingDigits cid)) =
        none →
      wokwi_to_shdf_pin cat cid pin = .error .unboundLocalError) ∧
    (∀ cid pin t,
      dget (pinTables cat).component_type_aliases (pyLower (stripTrailingDigits cid)) =
        some t →
      Option.elim (dget (pinTables cat).pin_mappings t) True
        (fun m => dget m pin = none ∧ dget m (pyLower pin) = none) →
      wokwi_to_shdf_pin cat cid pin = .ok pin) ∧
    (∀ pin t,
      dget (pinTables cat).reverse_pin_mappings (ctaResolve cat t) = none →
      shdf_to_wokwi_pin cat pin t = .error .keyError) ∧
    (∀ pin t m,
      dget (pinTables cat).reverse_pin_mappings (ctaResolve cat t) = some m →
      dget m (pinAliasResolve (pinTables cat) (ctaResolve cat t) (pyLower pin)) = none →
      shdf_to_wokwi_pin cat pin t = .error .keyError) := by
  refine ⟨?_, ?_, ?_, ?_⟩
  · intro cid pin h
    simp only [wokwi_to_shdf_pin, h]
  · intro cid pin t hcta helim
    simp only [wokwi_to_shdf_pin, hcta]
    cases hm : dget (pinTables cat).pin_mappings t with
    | none => rfl
    | some m =>
        rw [hm] at helim
        obtain ⟨hp, hpl⟩ := helim
        simp only [hp, hpl]
  · intro pin t h
    simp only [shdf_to_wokwi_pin, h]
  · intro pin t m hm hp
    simp only [shdf_to_wokwi_pin, hm, hp]

/-- Witness for C4 (amended): all four behaviors at concrete inputs over `Cat0`. -/
theorem C4_amended_pin_mappers_witness :
    wokwi_to_shdf_pin Cat0 "gizmo7" "a" = .error .unboundLocalError ∧
    wokwi_to_shdf_pin Cat0 "led1" "zz" = .ok "zz" ∧
    shdf_to_wokwi_pin Cat0 "a" "gizmo" = .error .keyError ∧
    shdf_to_wokwi_pin Cat0 "zz" "led" = .error .keyError :=
  ⟨(C4_amended_pin_mappers Cat0).1 "gizmo7" "a" (by decide),
   (C4_amended_pin_mappers Cat0).2.1 "led1" "zz" "led" (by decide) ⟨rfl, rfl⟩,
   (C4_amended_pin_mappers Cat0).2.2.1 "a" "gizmo" (by decide),
   (C4_amended_pin_mappers Cat0).2.2.2 "zz" "led" [("a", "A"), ("c", "C")]
     (by decide) (by decide)⟩

/-! ## C3 -/

/-- C3 counterexample: a component whose type resolves to no catalog neutral type is
not skipped — with catalog `Cat0`, the `gizmo` component is emitted with the
synthesized type `wokwi-gizmo` — and when a connection references one of its pins the
conversion raises an uncaught `KeyError` instead of completing. -/
theorem C3_counterexample :
    convert_standard_to_wokwi Cat0
      ⟨[⟨"gizmo1", "gizmo", []⟩], [["gizmo1.x", "gizmo1.y"]]⟩ "logical" =
      .error .keyError ∧
    (convert_standard_to_wokwi Cat0 ⟨[⟨"gizmo1", "gizmo", []⟩], []⟩ "logical").map
      (fun w => w.parts.map fun p => (p.id, p.type)) =
      .ok [("gizmo1", "wokwi-gizmo")] := by decide

/-- C3 (amended): a component whose declared type fails catalog resolution is kept,
not skipped: the part is emitted with the synthesized simulator type
`wokwi-<type with dashes>`, and translation completes only when no connection
references that component's pins — a connection endpoint on the unresolved component
makes `shdf_to_wokwi_pin` raise `KeyError`, which escapes
`convert_standard_to_wokwi`. -/
theorem C3_amended_unresolved_type (cat : Catalog) (cid t pa pb : String)
    (hA : dget (SHDF_TYPE_ALIASES cat) t = none)
    (h4d : t ≠ "4-digit 7-segment display")
    (hREV : dget (REVERSE_TYPE_MAPPINGS cat) t = none)
    (hRPM : dget (pinTables cat).reverse_pin_mappings (ctaResolve cat t) = none)
    (hsplit : pySplit1 (cid ++ "." ++ pa) '.' = some (cid, pa))
    (hbb : strContains (cid ++ "." ++ pa) "breadboard" = false) :
    convert_standard_to_wokwi cat ⟨[⟨cid, t, []⟩], [[cid ++ "." ++ pa, cid ++ "." ++ pb]]⟩
      "logical" = .error .keyError ∧
    (convert_standard_to_wokwi cat ⟨[⟨cid, t, []⟩], []⟩ "logical").map
      (fun w => w.parts.map fun p => (p.id, p.type)) =
      .ok [(_get_wokwi_id cat cid t, "wokwi-" ++ pyReplace t " " "-")] := by
  have halias : shdf_alias_check cat t = t := by
    simp [shdf_alias_check, hA]
  have hspec : specialType t = t := by
    simp [specialType, h4d]
  have hwt : shdf_to_wokwi_type cat t = "wokwi-" ++ pyReplace t " " "-" := by
    simp [shdf_to_wokwi_type, hREV]
  have hcomp : convert_component cat "logical" 0 ⟨cid, t, []⟩ =
      .ok { type := "wokwi-" ++ pyReplace t " " "-", id := _get_wokwi_id cat cid t,
            top := (_calculate_position ("wokwi-" ++ pyReplace t " " "-") 0 "logical").1,
            left := (_calculate_position ("wokwi-" ++ pyReplace t " " "-") 0 "logical").2.1,
            attrs := [],
            rotate := (_calculate_position ("wokwi-" ++ pyReplace t " " "-") 0 "logical").2.2 } := by
    simp [convert_component, halias, hspec, hwt, h4d, extractAttrs]
  have hpin : shdf_to_wokwi_pin cat pa t = .error .keyError := by
    simp only [shdf_to_wokwi_pin, hRPM]
  have hctm : component_type_map cat ⟨[⟨cid, t, []⟩],
      [[cid ++ "." ++ pa, cid ++ "." ++ pb]]⟩ = [(cid, t)] := by
    simp [component_type_map, halias, hspec, dinsert]
  have hpoint : _convert_to_wokwi_point cat [(cid, t)] (cid ++ "." ++ pa) =
      .error .keyError := by
    simp only [_convert_to_wokwi_point, hbb, Bool.false_eq_true, if_false, hsplit]
    simp [dget, hpin]
  constructor
  · simp only [convert_standard_to_wokwi, convertComponents, hcomp, hctm,
      convertConnections, hpoint]
  · simp only [convert_standard_to_wokwi, convertComponents, hcomp]
    have hctm2 : component_type_map cat ⟨[⟨cid, t, []⟩], []⟩ = [(cid, t)] := by
      simp [component_type_map, halias, hspec, dinsert]
    simp [convertConnections, Except.map]

/-- Witness for C3 (amended): the `gizmo` component over `Cat0`. -/
theorem C3_amended_unresolved_type_witness :
    convert_standard_to_wokwi Cat0
      ⟨[⟨"gizmo1", "gizmo", []⟩], [["gizmo1" ++ "." ++ "x", "gizmo1" ++ "." ++ "y"]]⟩
      "logical" = .error .keyError ∧
    (convert_standard_to_wokwi Cat0 ⟨[⟨"gizmo1", "gizmo", []⟩], []⟩ "logical").map
      (fun w => w.parts.map fun p => (p.id, p.type)) =
      .ok [(_get_wokwi_id Cat0 "gizmo1" "gizmo", "wokwi-" ++ pyReplace "gizmo" " " "-")] :=
  C3_amended_unresolved_type Cat0 "gizmo1" "gizmo" "x" "y"
    (by decide) (by decide) (by decide) (by decide) (by decide) (by decide)

/-! ## C1 -/

theorem strExt {a b : String} (h : a.data = b.data) : a = b := by
  cases a; cases b; exact congrArg String.mk h

theorem strData_append (a b : String) : (a ++ b).data = a.data ++ b.data := rfl

theorem splitFirstList_eq {sep : Char} :
    ∀ (l : List Char) {u v : List Char}, splitFirstList sep l = some (u, v) →
      l = u ++ sep :: v := by
  intro l
  induction l with
  | nil => intro u v h; simp [splitFirstList] at h
  | cons c cs ih =>
      intro u v h
      rw [splitFirstList] at h
      by_cases hc : c = sep
      · rw [if_pos hc] at h
        simp only [Option.some.injEq, Prod.mk.injEq] at h
        obtain ⟨hu, hv⟩ := h
        subst hu; subst hv; subst hc; rfl
      · rw [if_neg hc] at h
        cases hsp : splitFirstList sep cs with
        | none => rw [hsp] at h; cases h
        | some p =>
            rw [hsp] at h
            cases p with
            | mk x y =>
                simp only [Option.some.injEq, Prod.mk.injEq] at h
                obtain ⟨hu, hv⟩ := h
                subst hu; subst hv
                simp [ih hsp]

theorem pySplit1_eq {s : String} {sep : Char} {x y : String}
    (h : pySplit1 s sep = some (x, y)) : s.data = x.data ++ sep :: y.data := by
  unfold pySplit1 at h
  cases hsp : splitFirstList sep s.data with
  | none => rw [hsp] at h; cases h
  | some p =>
      rw [hsp] at h
      cases p with
      | mk u v =>
          simp only [Option.some.injEq, Prod.mk.injEq] at h
          obtain ⟨hx, hy⟩ := h
          subst hx; subst hy
          exact splitFirstList_eq s.data hsp

theorem ne_empty_of_pySplit1 {s : String} {sep : Char} {x y : String}
    (h : pySplit1 s sep = some (x, y)) : s ≠ "" := by
  intro he
  subst he
  simp [pySplit1, splitFirstList] at h

/-- The component-level conditions under which the logical-mode round trip restores a
component exactly: its type is already canonical (a fixed point of the alias table),
not the 4-digit special case, its properties are empty, its simulator type maps back
to it and is not the breadboard, and `_get_wokwi_id` maps its id to itself. -/
def CompOK (cat : Catalog) (c : ShdfComponent) : Prop :=
  shdf_alias_check cat c.type = c.type ∧
  c.type ≠ "4-digit 7-segment display" ∧
  c.properties = [] ∧
  wokwi_to_shdf_type cat (shdf_to_wokwi_type cat c.type) = c.type ∧
  shdf_to_wokwi_type cat c.type ≠ "wokwi-breadboard" ∧
  _get_wokwi_id cat c.id c.type = c.id

/-- The endpoint-level conditions: a component-pin endpoint `eid.pin` (no
`breadboard` substring on either side), with a declared component of type `t`, whose
pin maps forward to `wp` and back to a name lower-casing to `pin`, an id fixed by
`_get_wokwi_id` and free of `:` (so the simulator endpoint splits back apart). -/
def EndpointOK (cat : Catalog) (ctm : List (String × String)) (e : String) : Prop :=
  ∃ eid pin t wp pback,
    pySplit1 e '.' = some (eid, pin) ∧
    strContains e "breadboard" = false ∧
    dget ctm eid = some t ∧
    shdf_to_wokwi_pin cat pin t = .ok wp ∧
    _get_wokwi_id cat eid t = eid ∧
    strContains (eid ++ ":" ++ wp) "breadboard" = false ∧
    pySplit1 (eid ++ ":" ++ wp) ':' = some (eid, wp) ∧
    wokwi_to_shdf_pin cat eid wp = .ok pback ∧
    pyLower pback = pin

/-- A connection is two `EndpointOK` endpoints. -/
def ConnOK (cat : Catalog) (ctm : List (String × String)) (conn : List String) : Prop :=
  ∃ a b, conn = [a, b] ∧ EndpointOK cat ctm a ∧ EndpointOK cat ctm b

theorem endpoint_roundtrip {cat : Catalog} {ctm : List (String × String)} {e : String}
    (h : EndpointOK cat ctm e) :
    ∃ w, _convert_to_wokwi_point cat ctm e = .ok w ∧ w ≠ "" ∧
      strContains w "breadboard" = false ∧
      _convert_connection_point cat w "logical" = .ok (some e) ∧ e ≠ "" := by
  obtain ⟨eid, pin, t, wp, pback, h1, h2, h3, h4, h5, h6, h7, h8, h9⟩ := h
  refine ⟨eid ++ ":" ++ wp, ?_, ?_, h6, ?_, ne_empty_of_pySplit1 h1⟩
  · simp only [_convert_to_wokwi_point, h2, Bool.false_eq_true, if_false, h1, h3, h4, h5]
  · intro hw
    rw [hw] at h7
    simp [pySplit1, splitFirstList] at h7
  · simp only [_convert_connection_point, h6, Bool.false_eq_true, if_false, h7, h8]
    have hdata : (eid ++ "." ++ pin).data = e.data := by
      rw [strData_append, strData_append, pySplit1_eq h1]
      simp
    rw [h9, strExt hdata]

theorem conns_roundtrip (cat : Catalog) (ctm : List (String × String)) :
    ∀ conns : List (List String), (∀ conn ∈ conns, ConnOK cat ctm conn) →
      ∃ ws, convertConnections cat ctm conns = .ok ws ∧
        convertWokwiConns cat "logical" ws = .ok conns := by
  intro conns
  induction conns with
  | nil => intro _; exact ⟨[], rfl, rfl⟩
  | cons conn rest ih =>
      intro h
      obtain ⟨a, b, hconn, hA, hB⟩ := h conn (List.mem_cons_self _ _)
      obtain ⟨wa, hfa, hna, hba, hca, hea⟩ := endpoint_roundtrip hA
      obtain ⟨wb, hfb, hnb, hbb2, hcb, heb⟩ := endpoint_roundtrip hB
      obtain ⟨ws, hws, hback⟩ := ih fun c hc => h c (List.mem_cons_of_mem _ hc)
      subst hconn
      refine ⟨⟨wa, wb, _determine_wire_color a b, []⟩ :: ws, ?_, ?_⟩
      · simp only [convertConnections, hfa, hfb, hws]
        rw [if_pos ⟨hna, hnb⟩]
      · simp only [convertWokwiConns]
        rw [if_neg ?_]
        · simp only [hca, hcb, hback]
          rw [if_pos ⟨hea, heb⟩]
          rfl
        · rintro ⟨-, hc2, -⟩
          rw [hba] at hc2
          exact Bool.false_ne_true hc2

theorem comp_part_roundtrip (cat : Catalog) (c : ShdfComponent) (i : Nat)
    (h : CompOK cat c) :
    ∃ p : WokwiPart, convert_component cat "logical" i c = .ok p ∧
      p.type = shdf_to_wokwi_type cat c.type ∧ convert_part cat p = c := by
  obtain ⟨h1, h2, h3, h4, h5, h6⟩ := h
  have hspec : specialType c.type = c.type := by simp [specialType, h2]
  refine ⟨{ type := shdf_to_wokwi_type cat c.type, id := c.id,
            top := (_calculate_position (shdf_to_wokwi_type cat c.type) i "logical").1,
            left := (_calculate_position (shdf_to_wokwi_type cat c.type) i "logical").2.1,
            attrs := [],
            rotate := (_calculate_position (shdf_to_wokwi_type cat c.type) i "logical").2.2 },
    ?_, rfl, ?_⟩
  · simp [convert_component, h1, hspec, h2, h3, h6, extractAttrs]
  · simp only [convert_part, dget]
    rw [if_neg (by simp)]
    simp only [h4, ite_self, List.foldl_nil]
    cases c with
    | mk cid ct cp => simp only at h3 ⊢; rw [h3]

theorem comps_roundtrip (cat : Catalog) :
    ∀ (i : Nat) (cs : List ShdfComponent), (∀ c ∈ cs, CompOK cat c) →
      ∃ ps, convertComponents cat "logical" i cs = .ok ps ∧
        (ps.filter
          (fun p => !(("logical" : String) == "logical" && p.type == "wokwi-breadboard"))).map
          (convert_part cat) = cs := by
  intro i cs
  induction cs generalizing i with
  | nil => intro _; exact ⟨[], rfl, rfl⟩
  | cons c rest ih =>
      intro h
      obtain ⟨p, hp, htype, hback⟩ :=
        comp_part_roundtrip cat c i (h c (List.mem_cons_self _ _))
      obtain ⟨ps, hps, hmap⟩ := ih (i + 1) fun x hx => h x (List.mem_cons_of_mem _ hx)
      refine ⟨p :: ps, ?_, ?_⟩
      · simp only [convertComponents, hp, hps]
      · have h5 := (h c (List.mem_cons_self _ _)).2.2.2.2.1
        have hbeq : (p.type == "wokwi-breadboard") = false := by
          rw [htype]
          exact beq_eq_false_iff_ne.mpr h5
        rw [List.filter_cons, if_pos (by rw [hbeq]; rfl), List.map_cons, hback, hmap]

/-- C1 (amended): the logical-mode round trip
`convert_wokwi_to_standard (convert_standard_to_wokwi d logical) logical` restores
the document exactly (hence the same component id/type set and the same connection
pairs) for documents whose components satisfy `CompOK` (canonical catalog type with
a two-way simulator mapping, empty properties, id fixed by `_get_wokwi_id`) and
whose connections are pairs of `EndpointOK` component-pin endpoints (declared ids,
pins that round-trip through the pin tables, no `breadboard` substring). The
counterexample shows the unrestricted claim fails because `_get_wokwi_id` rewrites
ids. -/
theorem C1_roundtrip_logical (cat : Catalog) (d : ShdfDoc)
    (hc : ∀ c ∈ d.components, CompOK cat c)
    (hx : ∀ conn ∈ d.connections, ConnOK cat (component_type_map cat d) conn) :
    ∃ w, convert_standard_to_wokwi cat d "logical" = .ok w ∧
      convert_wokwi_to_standard cat w "logical" = .ok d := by
  obtain ⟨comps, conns⟩ := d
  obtain ⟨ps, hps, hmap⟩ := comps_roundtrip cat 0 comps hc
  obtain ⟨ws, hws, hwback⟩ :=
    conns_roundtrip cat (component_type_map cat ⟨comps, conns⟩) conns hx
  refine ⟨⟨ps, ws⟩, ?_, ?_⟩
  · simp only [convert_standard_to_wokwi, hps, hws]
  · simp only [convert_wokwi_to_standard, hwback, hmap]

/-- C1 counterexample: the round trip is not the identity on every pin-pin document.
`_get_wokwi_id` rewrites the id `myled2` (type `led`) to `led2`, so the round-tripped
document has component-id set `{led2}` instead of `{myled2}` (types unchanged), and
the connection endpoints move with it. -/
theorem C1_counterexample :
    Except.bind
      (convert_standard_to_wokwi Cat0
        ⟨[⟨"myled2", "led", []⟩], [["myled2.a", "myled2.c"]]⟩ "logical")
      (fun w => convert_wokwi_to_standard Cat0 w "logical") =
      .ok ⟨[⟨"led2", "led", []⟩], [["led2.a", "led2.c"]]⟩ ∧
    (⟨[⟨"led2", "led", []⟩], [["led2.a", "led2.c"]]⟩ : ShdfDoc).components.map
      (fun c => (c.id, c.type)) ≠
      (⟨[⟨"myled2", "led", []⟩], [["myled2.a", "myled2.c"]]⟩ : ShdfDoc).components.map
      (fun c => (c.id, c.type)) := by decide

/-- Witness for C1 (amended): a one-LED document whose id `led1` has the canonical
`type ++ digits` shape round-trips exactly over `Cat0`. -/
theorem C1_roundtrip_logical_witness :
    ∃ w, convert_standard_to_wokwi Cat0
        ⟨[⟨"led1", "led", []⟩], [["led1.a", "led1.c"]]⟩ "logical" = .ok w ∧
      convert_wokwi_to_standard Cat0 w "logical" =
        .ok ⟨[⟨"led1", "led", []⟩], [["led1.a", "led1.c"]]⟩ :=
  C1_roundtrip_logical Cat0 ⟨[⟨"led1", "led", []⟩], [["led1.a", "led1.c"]]⟩
    (by
      intro c hc
      simp only [List.mem_singleton] at hc
      subst hc
      exact ⟨by decide, by decide, rfl, by decide, by decide, by decide⟩)
    (by
      intro conn hconn
      simp only [List.mem_singleton] at hconn
      subst hconn
      exact ⟨"led1.a", "led1.c", rfl,
        ⟨"led1", "a", "led", "A", "a", by decide⟩,
        ⟨"led1", "c", "led", "C", "c", by decide⟩⟩)

end PCEval
